import Mathlib

/-!
Shallow embedding of the risk-and-execution core of the Polymarket 1-hour
arbitrage bot (source files src/risk/positions.rs, src/monitor/arbitrage.rs,
src/main.rs). Decimal arithmetic is modelled by ℚ; the DashMap position
store is modelled as a function to Option ℚ (nothing ever iterates it) and
the DashMap cost store as an association list (calculate_exposure iterates
and sums it).
-/

/-- The cost store of `PositionTracker`: an association list from token id
to dollar cost, keys kept unique by the update operations. -/
abbrev CostMap := List (ℕ × ℚ)

/-- Look a token up in the cost store (DashMap::get). -/
def CostMap.lookup (m : CostMap) (t : ℕ) : Option ℚ :=
  (m.find? (fun p => p.1 == t)).map (fun p => p.2)

/-- Remove a token's entry from the cost store (DashMap::remove). -/
def CostMap.remove (m : CostMap) (t : ℕ) : CostMap :=
  m.filter (fun p => p.1 != t)

/-- Write a token's entry in the cost store (DashMap entry().or_insert
followed by assignment: afterwards the key maps to exactly `v`). -/
def CostMap.insert (m : CostMap) (t : ℕ) (v : ℚ) : CostMap :=
  CostMap.remove m t ++ [(t, v)]

/-- State of `PositionTracker` (src/risk/positions.rs, lines 6-10):
`positions` maps token_id to signed quantity, `exposure_costs` maps
token_id to dollar cost, `max_exposure` is the configured ceiling. -/
structure PositionTracker where
  positions : ℕ → Option ℚ
  exposure_costs : CostMap
  max_exposure : ℚ

/-- `PositionTracker::new` (lines 13-19): both stores empty. -/
def PositionTracker.new (max_exposure : ℚ) : PositionTracker :=
  ⟨fun _ => none, [], max_exposure⟩

/-- `PositionTracker::update_position` (lines 21-51): add `delta` to the
token's quantity (entry created at 0 first if absent); if the resulting
magnitude is below 0.0001 the quantity is set to exactly 0 (the positions
entry itself stays in the map) and the token's cost entry is removed. -/
def PositionTracker.update_position (s : PositionTracker) (token_id : ℕ)
    (delta : ℚ) : PositionTracker :=
  let newPos := ((s.positions token_id).getD 0) + delta
  let should_remove := |newPos| < 1/10000
  { s with
    positions := fun u =>
      if u = token_id then some (if should_remove then 0 else newPos)
      else s.positions u,
    exposure_costs :=
      if should_remove then CostMap.remove s.exposure_costs token_id
      else s.exposure_costs }

/-- `PositionTracker::update_exposure_cost` (lines 56-124): no-op when
`delta = 0`; a buy (`delta > 0`) adds `price * delta` to the token's cost;
a sell (`delta < 0`) reads the current position and shrinks the cost by
`min(-delta, pos) / pos` when `pos > 0`, otherwise forces the cost to 0;
finally any cost below 0.01 is zeroed and its entry removed. -/
def PositionTracker.update_exposure_cost (s : PositionTracker) (token_id : ℕ)
    (price delta : ℚ) : PositionTracker :=
  if delta = 0 then s
  else
    let current_pos := if delta < 0 then (s.positions token_id).getD 0 else 0
    let entry := (CostMap.lookup s.exposure_costs token_id).getD 0
    let newEntry :=
      if delta > 0 then entry + price * delta
      else if current_pos > 0 then
        let sell_amount := min (-delta) current_pos
        let reduction_ratio := sell_amount / current_pos
        max (entry * (1 - reduction_ratio)) 0
      else 0
    if newEntry < 1/100 then
      { s with exposure_costs := CostMap.remove s.exposure_costs token_id }
    else
      { s with exposure_costs := CostMap.insert s.exposure_costs token_id newEntry }

/-- `PositionTracker::get_position` (lines 131-136). -/
def PositionTracker.get_position (s : PositionTracker) (token_id : ℕ) : ℚ :=
  (s.positions token_id).getD 0

/-- `PositionTracker::calculate_imbalance` (lines 139-151):
`|yes - no| / (yes + no)`, returning 0 when the total is 0. -/
def PositionTracker.calculate_imbalance (s : PositionTracker)
    (yes_token no_token : ℕ) : ℚ :=
  let yes_pos := s.get_position yes_token
  let no_pos := s.get_position no_token
  let total := yes_pos + no_pos
  if total = 0 then 0
  else |yes_pos - no_pos| / total

/-- `PositionTracker::calculate_exposure` (lines 155-163): sum of the
values of all cost entries. -/
def PositionTracker.calculate_exposure (s : PositionTracker) : ℚ :=
  (s.exposure_costs.map (fun p => p.2)).sum

/-- `PositionTracker::would_exceed_limit` (lines 172-176). -/
def PositionTracker.would_exceed_limit (s : PositionTracker)
    (yes_cost no_cost : ℚ) : Bool :=
  decide (s.calculate_exposure + (yes_cost + no_cost) > s.max_exposure)

/-- States of the tracker reachable from a fresh tracker by an arbitrary
interleaving of `update_position` and `update_exposure_cost` calls. -/
inductive PositionTracker.Reachable : PositionTracker → Prop where
  | new (max_exposure : ℚ) : PositionTracker.Reachable (PositionTracker.new max_exposure)
  | update_position {s : PositionTracker} (t : ℕ) (δ : ℚ) :
      PositionTracker.Reachable s → PositionTracker.Reachable (s.update_position t δ)
  | update_exposure_cost {s : PositionTracker} (t : ℕ) (p δ : ℚ) :
      PositionTracker.Reachable s → PositionTracker.Reachable (s.update_exposure_cost t p δ)

/-- One fill applied under the caller contract documented in the source
(the position read for the sell ratio must precede the position mutation
for the same fill): `update_exposure_cost` first, then `update_position`
with the same delta. -/
def PositionTracker.apply_fill (s : PositionTracker) (t : ℕ) (price delta : ℚ) :
    PositionTracker :=
  (s.update_exposure_cost t price delta).update_position t delta

/-- States reachable from a fresh tracker by whole fills only. -/
inductive PositionTracker.FillReachable : PositionTracker → Prop where
  | new (max_exposure : ℚ) : PositionTracker.FillReachable (PositionTracker.new max_exposure)
  | fill {s : PositionTracker} (t : ℕ) (price delta : ℚ) :
      PositionTracker.FillReachable s → PositionTracker.FillReachable (s.apply_fill t price delta)

/-- One ask level of an order book (price, size). -/
structure AskLevel where
  price : ℚ
  size : ℚ
deriving DecidableEq, Repr

/-- The order-book snapshot consumed by the detector: asks ascending by
price, the best (lowest) ask is the last element. -/
structure BookUpdate where
  asset_id : ℕ
  asks : List AskLevel
deriving DecidableEq, Repr

/-- rust_decimal `round_dp(2)`: round to 2 decimal places, ties to the
even hundredth (the crate's default MidpointNearestEven strategy). -/
def roundDp2 (x : ℚ) : ℚ :=
  let y := x * 100
  let f : ℤ := ⌊y⌋
  let n : ℤ :=
    if y - f < 1/2 then f
    else if 1/2 < y - f then f + 1
    else if 2 ∣ f then f else f + 1
  (n : ℚ) / 100

/-- `ArbitrageOpportunity` (src/monitor/arbitrage.rs, lines 6-17). -/
structure ArbitrageOpportunity where
  market_id : ℕ
  yes_token_id : ℕ
  no_token_id : ℕ
  yes_ask_price : ℚ
  no_ask_price : ℚ
  total_cost : ℚ
  profit_percentage : ℚ
  yes_size : ℚ
  no_size : ℚ
deriving DecidableEq, Repr

/-- `ArbitrageDetector` (lines 19-23). -/
structure ArbitrageDetector where
  min_profit_threshold : ℚ
  max_depth : ℕ
  min_order_value_usd : ℚ
deriving DecidableEq, Repr

/-- `ArbitrageDetector::new` (lines 26-33): depth 10, minimum order
value fixed at one dollar. -/
def ArbitrageDetector.new (min_profit_threshold : ℚ) : ArbitrageDetector :=
  ⟨min_profit_threshold, 10, 1⟩

/-- `ArbitrageDetector::find_best_opportunity` (lines 37-70): round each
best ask to 2 dp; if the rounded prices sum above 1 there is no arbitrage;
the size is the smaller best-ask size floored to 2 dp, replaced by 0.01
when the raw minimum is exactly zero; reject when either leg's notional
is below the minimum order value. Returns
(yes_price, no_price, size, profit_pct, total_price). -/
def ArbitrageDetector.find_best_opportunity (d : ArbitrageDetector)
    (yes_book no_book : BookUpdate) : Option (ℚ × ℚ × ℚ × ℚ × ℚ) :=
  match yes_book.asks.getLast?, no_book.asks.getLast? with
  | some yes_best, some no_best =>
    let yes_price := roundDp2 yes_best.price
    let no_price := roundDp2 no_best.price
    let total_price := yes_price + no_price
    if total_price > 1 then none
    else
      let raw_size := min yes_best.size no_best.size
      let final_size := if raw_size = 0 then 1/100 else (⌊raw_size * 100⌋ : ℚ) / 100
      let yes_order_value := yes_price * final_size
      let no_order_value := no_price * final_size
      if yes_order_value < d.min_order_value_usd ∨ no_order_value < d.min_order_value_usd
      then none
      else some (yes_price, no_price, final_size, (1 - total_price) * 100, total_price)
  | _, _ => none

/-- `ArbitrageDetector::check_arbitrage` (lines 115-148): package the
result of `find_best_opportunity` into an `ArbitrageOpportunity`. -/
def ArbitrageDetector.check_arbitrage (d : ArbitrageDetector)
    (yes_book no_book : BookUpdate) (market_id : ℕ) : Option ArbitrageOpportunity :=
  (d.find_best_opportunity yes_book no_book).map fun r =>
    { market_id := market_id
      yes_token_id := yes_book.asset_id
      no_token_id := no_book.asset_id
      yes_ask_price := r.1
      no_ask_price := r.2.1
      total_cost := r.2.2.2.2 * r.2.2.1
      profit_percentage := r.2.2.2.1
      yes_size := r.2.2.1
      no_size := r.2.2.1 }

/-- One inventory entry (`poly_15min_bot::positions::Position` as used by
src/main.rs): a market's condition id, the outcome side index, the held
size. -/
structure InventoryPosition where
  condition_id : ℕ
  outcome_index : ℤ
  size : ℚ
deriving DecidableEq, Repr

/-- `condition_ids_with_both_sides` (src/main.rs, lines 29-45): the
condition ids for which some entry of strictly positive size exists at
outcome index 0 and some at outcome index 1 (entries of non-positive
size are skipped). The Rust function returns these ids in unspecified
HashMap order; the model returns them deduplicated in first-seen order,
which agrees with the source on membership. -/
def condition_ids_with_both_sides (positions : List InventoryPosition) : List ℕ :=
  (((positions.filter (fun p => 0 < p.size)).map
      (fun p => p.condition_id)).dedup).filter
    (fun c =>
      (positions.any (fun p => p.condition_id == c && decide (0 < p.size)
        && p.outcome_index == 0)) &&
      (positions.any (fun p => p.condition_id == c && decide (0 < p.size)
        && p.outcome_index == 1)))

/-- `RecoveryAction` (src/risk/recovery.rs). Modelled from the spec:
the file defining the recovery enum is not among the provided sources
(only src/risk/mod.rs declares the module and src/main.rs matches on it);
the spec describes it as a closed tagged union with these four
variants. -/
inductive RecoveryAction where
  | noAction : RecoveryAction
  | monitorForExit (token : ℕ) (quantity : ℚ) : RecoveryAction
  | sellExcess (token : ℕ) (quantity : ℚ) : RecoveryAction
  | manualIntervention (reason : String) : RecoveryAction
deriving DecidableEq, Repr

/-- One leg of an executed pair as seen by the settlement classifier:
its token, the ordered quantity and the realized filled quantity. -/
structure LegFill where
  token : ℕ
  ordered : ℚ
  filled : ℚ
deriving DecidableEq, Repr

/-- `SettlementClassifier` (src/risk/recovery.rs). Modelled from the
spec: the classifier source is not among the provided files; the spec
gives the recipes in order — both legs fully filled with equal
quantities give no action; exactly one leg filled with the other
entirely unfilled gives MonitorForExit with the filled leg and its
quantity; both legs filled with different quantities give SellExcess
with the larger leg and the difference; every other combination gives
ManualIntervention. -/
def SettlementClassifier.classify (yes_leg no_leg : LegFill) : RecoveryAction :=
  if yes_leg.filled = yes_leg.ordered ∧ no_leg.filled = no_leg.ordered ∧
      yes_leg.filled = no_leg.filled then
    RecoveryAction.noAction
  else if 0 < yes_leg.filled ∧ no_leg.filled = 0 then
    RecoveryAction.monitorForExit yes_leg.token yes_leg.filled
  else if 0 < no_leg.filled ∧ yes_leg.filled = 0 then
    RecoveryAction.monitorForExit no_leg.token no_leg.filled
  else if 0 < yes_leg.filled ∧ 0 < no_leg.filled ∧ yes_leg.filled ≠ no_leg.filled then
    if no_leg.filled < yes_leg.filled then
      RecoveryAction.sellExcess yes_leg.token (yes_leg.filled - no_leg.filled)
    else
      RecoveryAction.sellExcess no_leg.token (no_leg.filled - yes_leg.filled)
  else
    RecoveryAction.manualIntervention "inconsistent fill state"

/-! ### Basic lemmas about the two stores -/

theorem CostMap.find?_remove_self (m : CostMap) (t : ℕ) :
    (CostMap.remove m t).find? (fun p => p.1 == t) = none := by
  rw [List.find?_eq_none]
  intro x hx
  simp only [CostMap.remove, List.mem_filter, bne_iff_ne, ne_eq] at hx
  simp [hx.2]

theorem CostMap.find?_remove_ne (m : CostMap) {t u : ℕ} (h : u ≠ t) :
    (CostMap.remove m t).find? (fun p => p.1 == u) = m.find? (fun p => p.1 == u) := by
  induction m with
  | nil => rfl
  | cons a l ih =>
    by_cases h1 : a.1 = t
    · have hd : CostMap.remove (a :: l) t = CostMap.remove l t := by
        simp [CostMap.remove, List.filter_cons, h1]
      have h2 : ¬(a.1 == u) = true := by simp [h1, Ne.symm h]
      rw [hd, ih, @List.find?_cons_of_neg _ (fun p => p.1 == u) a l h2]
    · have hd : CostMap.remove (a :: l) t = a :: CostMap.remove l t := by
        simp [CostMap.remove, List.filter_cons, h1]
      rw [hd]
      by_cases h3 : a.1 = u
      · rw [@List.find?_cons_of_pos _ (fun p => p.1 == u) a (CostMap.remove l t) (by simp [h3]),
          @List.find?_cons_of_pos _ (fun p => p.1 == u) a l (by simp [h3])]
      · rw [@List.find?_cons_of_neg _ (fun p => p.1 == u) a (CostMap.remove l t) (by simp [h3]),
          @List.find?_cons_of_neg _ (fun p => p.1 == u) a l (by simp [h3]), ih]

theorem CostMap.lookup_remove_self (m : CostMap) (t : ℕ) :
    (CostMap.remove m t).lookup t = none := by
  simp [CostMap.lookup, CostMap.find?_remove_self]

theorem CostMap.lookup_remove_ne (m : CostMap) {t u : ℕ} (h : u ≠ t) :
    (CostMap.remove m t).lookup u = m.lookup u := by
  simp [CostMap.lookup, CostMap.find?_remove_ne m h]

theorem CostMap.lookup_insert_self (m : CostMap) (t : ℕ) (v : ℚ) :
    (CostMap.insert m t v).lookup t = some v := by
  simp only [CostMap.lookup, CostMap.insert, List.find?_append,
    CostMap.find?_remove_self, Option.none_or]
  rw [List.find?_cons_of_pos _ (by simp)]
  rfl

theorem CostMap.lookup_insert_ne (m : CostMap) {t u : ℕ} (v : ℚ) (h : u ≠ t) :
    (CostMap.insert m t v).lookup u = m.lookup u := by
  simp only [CostMap.lookup, CostMap.insert, List.find?_append]
  rw [List.find?_cons_of_neg _ (by simp [Ne.symm h])]
  simp [CostMap.find?_remove_ne m h]

theorem CostMap.mem_remove {m : CostMap} {t : ℕ} {p : ℕ × ℚ}
    (hp : p ∈ CostMap.remove m t) : p ∈ m := by
  exact (List.mem_filter.mp hp).1

theorem CostMap.mem_insert {m : CostMap} {t : ℕ} {v : ℚ} {p : ℕ × ℚ}
    (hp : p ∈ CostMap.insert m t v) : p ∈ m ∨ p = (t, v) := by
  rcases List.mem_append.mp hp with h | h
  · exact Or.inl (CostMap.mem_remove h)
  · simp only [List.mem_singleton] at h
    exact Or.inr h

theorem CostMap.lookup_mem {m : CostMap} {t : ℕ} {v : ℚ}
    (h : m.lookup t = some v) : (t, v) ∈ m := by
  simp only [CostMap.lookup, Option.map_eq_some'] at h
  obtain ⟨p, hp, hv⟩ := h
  have h1 := List.find?_some hp
  have h2 := List.mem_of_find?_eq_some hp
  simp only [beq_iff_eq] at h1
  have : p = (t, v) := by
    cases p
    simp only at h1 hv
    simp [h1, hv]
  rwa [this] at h2

theorem PositionTracker.positions_update_exposure_cost (s : PositionTracker)
    (t : ℕ) (price delta : ℚ) :
    (s.update_exposure_cost t price delta).positions = s.positions := by
  simp only [PositionTracker.update_exposure_cost]
  split_ifs <;> rfl

theorem PositionTracker.max_exposure_update_exposure_cost (s : PositionTracker)
    (t : ℕ) (price delta : ℚ) :
    (s.update_exposure_cost t price delta).max_exposure = s.max_exposure := by
  simp only [PositionTracker.update_exposure_cost]
  split_ifs <;> rfl

theorem PositionTracker.get_position_update_self (s : PositionTracker)
    (t : ℕ) (delta : ℚ) :
    (s.update_position t delta).get_position t =
      (if |s.get_position t + delta| < 1/10000 then 0 else s.get_position t + delta) := by
  unfold PositionTracker.update_position PositionTracker.get_position
  split_ifs <;> simp_all

theorem PositionTracker.get_position_update_ne (s : PositionTracker)
    {t u : ℕ} (delta : ℚ) (h : u ≠ t) :
    (s.update_position t delta).get_position u = s.get_position u := by
  unfold PositionTracker.update_position PositionTracker.get_position
  simp [h]

theorem PositionTracker.positions_update_position_ne (s : PositionTracker)
    {t u : ℕ} (delta : ℚ) (h : u ≠ t) :
    (s.update_position t delta).positions u = s.positions u := by
  simp [PositionTracker.update_position, h]

theorem PositionTracker.lookup_update_position_ne (s : PositionTracker)
    {t u : ℕ} (delta : ℚ) (h : u ≠ t) :
    CostMap.lookup (s.update_position t delta).exposure_costs u =
      CostMap.lookup s.exposure_costs u := by
  simp only [PositionTracker.update_position]
  split_ifs <;> simp [CostMap.lookup_remove_ne _ h]

theorem PositionTracker.lookup_update_exposure_cost_ne (s : PositionTracker)
    {t u : ℕ} (price delta : ℚ) (h : u ≠ t) :
    CostMap.lookup (s.update_exposure_cost t price delta).exposure_costs u =
      CostMap.lookup s.exposure_costs u := by
  simp only [PositionTracker.update_exposure_cost]
  split_ifs <;>
    simp [CostMap.lookup_remove_ne _ h, CostMap.lookup_insert_ne _ _ h]

/-- Invariant preserved by whole fills: a token whose position reads zero
has no cost entry, and a cost entry implies a positions entry. -/
theorem PositionTracker.fill_invariant {s : PositionTracker}
    (hs : PositionTracker.FillReachable s) (t : ℕ) :
    (s.get_position t = 0 → CostMap.lookup s.exposure_costs t = none) ∧
    ((CostMap.lookup s.exposure_costs t).isSome → (s.positions t).isSome) := by
  induction hs with
  | new m =>
    refine ⟨fun _ => rfl, fun hsome => ?_⟩
    simp [PositionTracker.new, CostMap.lookup] at hsome
  | @fill s t0 price delta hs ih =>
    by_cases ht : t = t0
    · subst ht
      unfold PositionTracker.apply_fill
      by_cases hsr : |((s.update_exposure_cost t price delta).positions t).getD 0 + delta|
          < 1/10000
      · refine ⟨fun _ => ?_, fun _ => ?_⟩
        · have hcost : ((s.update_exposure_cost t price delta).update_position t delta).exposure_costs
              = CostMap.remove (s.update_exposure_cost t price delta).exposure_costs t := by
            simp only [PositionTracker.update_position]
            rw [if_pos hsr]
          rw [hcost, CostMap.lookup_remove_self]
        · simp [PositionTracker.update_position]
      · refine ⟨fun h0 => absurd hsr ?_, fun _ => ?_⟩
        · have hval : ((s.update_exposure_cost t price delta).update_position t delta).get_position t
              = ((s.update_exposure_cost t price delta).positions t).getD 0 + delta := by
            simp only [PositionTracker.update_position, PositionTracker.get_position]
            rw [if_neg hsr]
            simp
          rw [hval] at h0
          rw [h0]
          norm_num
        · simp [PositionTracker.update_position]
    · have hPos : ((s.update_exposure_cost t0 price delta).update_position t0 delta).positions t
          = s.positions t := by
        rw [PositionTracker.positions_update_position_ne _ _ ht,
          PositionTracker.positions_update_exposure_cost]
      have hCost : CostMap.lookup
            ((s.update_exposure_cost t0 price delta).update_position t0 delta).exposure_costs t
          = CostMap.lookup s.exposure_costs t := by
        rw [PositionTracker.lookup_update_position_ne _ _ ht,
          PositionTracker.lookup_update_exposure_cost_ne _ _ _ ht]
      unfold PositionTracker.apply_fill
      refine ⟨fun h0 => ?_, fun hsome => ?_⟩
      · rw [hCost]
        exact ih.1 (by rwa [PositionTracker.get_position, hPos] at h0)
      · rw [hPos]
        exact ih.2 (by rwa [hCost] at hsome)

/-- Claim C1, counterexample: a single `update_exposure_cost(0, 0.5, +10)`
call on a fresh tracker is a reachable state in which token 0 has position
zero yet cost basis 5, and a cost entry exists while the position entry is
absent — refuting both halves of the claimed invariant for arbitrary call
sequences. -/
theorem C1_counterexample :
    PositionTracker.Reachable ((PositionTracker.new 1000).update_exposure_cost 0 (1/2) 10) ∧
    ((PositionTracker.new 1000).update_exposure_cost 0 (1/2) 10).get_position 0 = 0 ∧
    CostMap.lookup ((PositionTracker.new 1000).update_exposure_cost 0 (1/2) 10).exposure_costs 0
      = some 5 ∧
    ((PositionTracker.new 1000).update_exposure_cost 0 (1/2) 10).positions 0 = none := by
  refine ⟨PositionTracker.Reachable.update_exposure_cost 0 (1/2) 10
      (PositionTracker.Reachable.new 1000), ?_, ?_, ?_⟩ <;>
    norm_num [PositionTracker.update_exposure_cost, PositionTracker.new,
      PositionTracker.get_position, CostMap.lookup, CostMap.insert, CostMap.remove,
      List.find?]

/-- Claim C1, amended: for every state reached by whole fills (each fill
calling `update_exposure_cost` and then `update_position` with the same
delta, the ordering the source documents as the caller contract), a token
whose position is zero has cost basis zero, and a cost entry exists only
if the token's positions entry exists (the positions entry may survive at
value zero with no cost entry, so full two-way co-existence still fails). -/
theorem C1_amended {s : PositionTracker} (hs : PositionTracker.FillReachable s) (t : ℕ) :
    (s.get_position t = 0 → (CostMap.lookup s.exposure_costs t).getD 0 = 0) ∧
    ((CostMap.lookup s.exposure_costs t).isSome → (s.positions t).isSome) := by
  refine ⟨fun h0 => ?_, (PositionTracker.fill_invariant hs t).2⟩
  rw [(PositionTracker.fill_invariant hs t).1 h0]
  rfl

/-- Witness for C1_amended: after one fill of 10 units at price 0.5 on
token 0, token 1 (position zero) has cost basis zero, and token 0's cost
entry is matched by a positions entry. -/
theorem C1_amended_witness :
    (CostMap.lookup ((PositionTracker.new 100).apply_fill 0 (1/2) 10).exposure_costs 1).getD 0
      = 0 ∧
    (((PositionTracker.new 100).apply_fill 0 (1/2) 10).positions 0).isSome = true := by
  constructor
  · exact (C1_amended (PositionTracker.FillReachable.fill 0 (1/2) 10
        (PositionTracker.FillReachable.new 100)) 1).1
      (by norm_num [PositionTracker.apply_fill, PositionTracker.update_exposure_cost,
        PositionTracker.update_position, PositionTracker.new, PositionTracker.get_position,
        CostMap.lookup, CostMap.insert, CostMap.remove, List.find?])
  · exact (C1_amended (PositionTracker.FillReachable.fill 0 (1/2) 10
        (PositionTracker.FillReachable.new 100)) 0).2
      (by norm_num [PositionTracker.apply_fill, PositionTracker.update_exposure_cost,
        PositionTracker.update_position, PositionTracker.new,
        CostMap.lookup, CostMap.insert, CostMap.remove, List.find?])

/-- Every cost entry of a reachable tracker is at least one cent: entries
below 0.01 are removed by both update operations. -/
theorem PositionTracker.reachable_cost_entry_ge {s : PositionTracker}
    (hs : PositionTracker.Reachable s) {p : ℕ × ℚ}
    (hp : p ∈ s.exposure_costs) : 1/100 ≤ p.2 := by
  induction hs with
  | new m => simp [PositionTracker.new] at hp
  | update_position t δ hs ih =>
    revert hp
    simp only [PositionTracker.update_position]
    split_ifs <;> intro hp
    · exact ih (CostMap.mem_remove hp)
    · exact ih hp
  | update_exposure_cost t price δ hs ih =>
    revert hp
    simp only [PositionTracker.update_exposure_cost]
    split_ifs <;> intro hp <;>
      first
      | exact ih hp
      | exact ih (CostMap.mem_remove hp)
      | (rcases CostMap.mem_insert hp with h | h
         exacts [ih h, by rw [h]; exact not_lt.mp (by assumption)])

/-- The cost basis read for any token of a reachable tracker is
non-negative. -/
theorem PositionTracker.reachable_cost_nonneg {s : PositionTracker}
    (hs : PositionTracker.Reachable s) (t : ℕ) :
    0 ≤ (CostMap.lookup s.exposure_costs t).getD 0 := by
  cases hl : CostMap.lookup s.exposure_costs t with
  | none => simp
  | some v =>
    have h := PositionTracker.reachable_cost_entry_ge hs (CostMap.lookup_mem hl)
    simp only [Option.getD_some]
    simp only at h
    linarith

/-- Evaluation of the sell branch of `update_exposure_cost` when the
current position is strictly positive. -/
theorem PositionTracker.update_exposure_cost_sell (s : PositionTracker) (t : ℕ)
    (price delta : ℚ) (hdelta : delta < 0) (hpos : (s.positions t).getD 0 > 0) :
    (s.update_exposure_cost t price delta).exposure_costs =
      if max ((CostMap.lookup s.exposure_costs t).getD 0 *
          (1 - min (-delta) ((s.positions t).getD 0) / (s.positions t).getD 0)) 0 < 1/100
      then CostMap.remove s.exposure_costs t
      else CostMap.insert s.exposure_costs t
        (max ((CostMap.lookup s.exposure_costs t).getD 0 *
          (1 - min (-delta) ((s.positions t).getD 0) / (s.positions t).getD 0)) 0) := by
  simp only [PositionTracker.update_exposure_cost,
    if_neg (ne_of_lt hdelta), if_pos hdelta, if_pos hpos,
    if_neg (not_lt.mpr hdelta.le : ¬ delta > 0)]
  split_ifs <;> rfl

/-- Claim C3: for a sell (`delta < 0`) on a reachable tracker, when the
current position is strictly positive the stored cost is multiplied by
`1 - min(-delta, pos)/pos` (kept if at least one cent, else the entry is
removed); when the current position is zero or negative the cost is
forced to zero and the entry removed. -/
theorem C3_sell_shrinks_cost_proportionally {s : PositionTracker}
    (hs : PositionTracker.Reachable s) (t : ℕ) (price delta : ℚ)
    (hdelta : delta < 0) :
    (0 < s.get_position t →
      (((CostMap.lookup s.exposure_costs t).getD 0 *
          (1 - min (-delta) (s.get_position t) / s.get_position t) < 1/100 →
        CostMap.lookup (s.update_exposure_cost t price delta).exposure_costs t = none) ∧
       (1/100 ≤ (CostMap.lookup s.exposure_costs t).getD 0 *
          (1 - min (-delta) (s.get_position t) / s.get_position t) →
        CostMap.lookup (s.update_exposure_cost t price delta).exposure_costs t =
          some ((CostMap.lookup s.exposure_costs t).getD 0 *
            (1 - min (-delta) (s.get_position t) / s.get_position t))))) ∧
    (s.get_position t ≤ 0 →
      CostMap.lookup (s.update_exposure_cost t price delta).exposure_costs t = none) := by
  simp only [PositionTracker.get_position]
  constructor
  · intro hpos
    have hratio : min (-delta) ((s.positions t).getD 0) / (s.positions t).getD 0 ≤ 1 :=
      (div_le_one hpos).mpr (min_le_right _ _)
    have hnn : 0 ≤ (CostMap.lookup s.exposure_costs t).getD 0 :=
      PositionTracker.reachable_cost_nonneg hs t
    have hprod : 0 ≤ (CostMap.lookup s.exposure_costs t).getD 0 *
        (1 - min (-delta) ((s.positions t).getD 0) / (s.positions t).getD 0) :=
      mul_nonneg hnn (by linarith)
    have hmax : max ((CostMap.lookup s.exposure_costs t).getD 0 *
        (1 - min (-delta) ((s.positions t).getD 0) / (s.positions t).getD 0)) 0
        = (CostMap.lookup s.exposure_costs t).getD 0 *
          (1 - min (-delta) ((s.positions t).getD 0) / (s.positions t).getD 0) :=
      max_eq_left hprod
    have heval := PositionTracker.update_exposure_cost_sell s t price delta hdelta hpos
    refine ⟨fun hlt => ?_, fun hge => ?_⟩
    · have hc : max ((CostMap.lookup s.exposure_costs t).getD 0 *
          (1 - min (-delta) ((s.positions t).getD 0) / (s.positions t).getD 0)) 0 < 1/100 := by
        rw [hmax]; exact hlt
      rw [heval, if_pos hc, CostMap.lookup_remove_self]
    · have hc : ¬ max ((CostMap.lookup s.exposure_costs t).getD 0 *
          (1 - min (-delta) ((s.positions t).getD 0) / (s.positions t).getD 0)) 0 < 1/100 := by
        rw [hmax]; exact not_lt.mpr hge
      rw [heval, if_neg hc, CostMap.lookup_insert_self, hmax]
  · intro hle
    have heval : (s.update_exposure_cost t price delta).exposure_costs
        = CostMap.remove s.exposure_costs t := by
      simp only [PositionTracker.update_exposure_cost,
        if_neg (ne_of_lt hdelta), if_pos hdelta,
        if_neg (not_lt.mpr hdelta.le : ¬ delta > 0),
        if_neg (not_lt.mpr hle : ¬ (s.positions t).getD 0 > 0)]
      rw [if_pos (by norm_num)]
    rw [heval, CostMap.lookup_remove_self]

/-- Witness for C3, the spec's Scenario C: buy 10 units of token 0 at
price 0.40 (cost 4.00), then sell 4 units at price 0.50; the cost after
the sell is 4.00 * (1 - 4/10) = 2.40. -/
theorem C3_witness :
    CostMap.lookup ((((PositionTracker.new 1000).update_position 0 10).update_exposure_cost
        0 (2/5) 10).update_exposure_cost 0 (1/2) (-4)).exposure_costs 0
      = some (12/5) := by
  have hr : PositionTracker.Reachable
      (((PositionTracker.new 1000).update_position 0 10).update_exposure_cost 0 (2/5) 10) :=
    PositionTracker.Reachable.update_exposure_cost 0 (2/5) 10
      (PositionTracker.Reachable.update_position 0 10 (PositionTracker.Reachable.new 1000))
  have hpos : 0 < (((PositionTracker.new 1000).update_position 0 10).update_exposure_cost
      0 (2/5) 10).get_position 0 := by
    norm_num [PositionTracker.update_exposure_cost, PositionTracker.update_position,
      PositionTracker.new, PositionTracker.get_position, CostMap.lookup, CostMap.insert,
      CostMap.remove, List.find?]
  have hge : 1/100 ≤ (CostMap.lookup (((PositionTracker.new 1000).update_position
        0 10).update_exposure_cost 0 (2/5) 10).exposure_costs 0).getD 0 *
      (1 - min (-(-4 : ℚ)) ((((PositionTracker.new 1000).update_position
        0 10).update_exposure_cost 0 (2/5) 10).get_position 0) /
        (((PositionTracker.new 1000).update_position 0 10).update_exposure_cost
          0 (2/5) 10).get_position 0) := by
    norm_num [PositionTracker.update_exposure_cost, PositionTracker.update_position,
      PositionTracker.new, PositionTracker.get_position, CostMap.lookup, CostMap.insert,
      CostMap.remove, List.find?, min_def]
  have h := ((C3_sell_shrinks_cost_proportionally hr 0 (1/2) (-4)
      (by norm_num)).1 hpos).2 hge
  rw [h]
  congr 1
  norm_num [PositionTracker.update_exposure_cost, PositionTracker.update_position,
    PositionTracker.new, PositionTracker.get_position, CostMap.lookup, CostMap.insert,
    CostMap.remove, List.find?, min_def]

/-- The specification's description of the stored quantity: the running
sum of the deltas, snapped to exactly zero whenever its magnitude drops
below 1e-4 (subsequent deltas accumulate from that zero). -/
def runningSumSnapped (ds : List ℚ) : ℚ :=
  ds.foldl (fun acc δ => if |acc + δ| < 1/10000 then 0 else acc + δ) 0

/-- Folding `update_position` over a list of deltas folds the
snap-to-zero step over the stored quantity. -/
theorem PositionTracker.foldl_update_position (t : ℕ) (ds : List ℚ)
    (s : PositionTracker) :
    ((ds.foldl (fun a δ => a.update_position t δ) s).get_position t) =
      ds.foldl (fun acc δ => if |acc + δ| < 1/10000 then 0 else acc + δ)
        (s.get_position t) := by
  induction ds generalizing s with
  | nil => rfl
  | cons d rest ih =>
    simp only [List.foldl_cons]
    rw [ih, PositionTracker.get_position_update_self]

/-- Claim C4: for every finite sequence of `update_position` deltas on
one token of a fresh tracker, the stored quantity equals the running sum
of the deltas with intermediate sums of magnitude below 1e-4 snapped to
exactly zero. -/
theorem C4_position_is_snapped_running_sum (max_exposure : ℚ) (t : ℕ)
    (ds : List ℚ) :
    ((ds.foldl (fun s δ => s.update_position t δ)
        (PositionTracker.new max_exposure)).get_position t)
      = runningSumSnapped ds := by
  rw [runningSumSnapped, PositionTracker.foldl_update_position]
  rfl

/-- Claim C5, counterexample: the reachable state with position +5 on
token 0 and -3 on token 1 gives `calculate_imbalance 0 1 = 4`, outside
the claimed interval [0, 1]. -/
theorem C5_counterexample :
    PositionTracker.Reachable
      (((PositionTracker.new 100).update_position 0 5).update_position 1 (-3)) ∧
    (((PositionTracker.new 100).update_position 0 5).update_position 1
        (-3)).calculate_imbalance 0 1 = 4 ∧
    ¬ (((PositionTracker.new 100).update_position 0 5).update_position 1
        (-3)).calculate_imbalance 0 1 ≤ 1 := by
  refine ⟨PositionTracker.Reachable.update_position 1 (-3)
      (PositionTracker.Reachable.update_position 0 5
        (PositionTracker.Reachable.new 100)), ?_, ?_⟩ <;>
    norm_num [PositionTracker.calculate_imbalance, PositionTracker.update_position,
      PositionTracker.new, PositionTracker.get_position, abs_of_pos, abs_of_nonneg]

/-- Claim C5, amended: when both stored positions are non-negative,
`calculate_imbalance` lies in [0, 1]; it equals 0 whenever the two
positions are equal (hence also when both are zero). -/
theorem C5_amended (s : PositionTracker) (a b : ℕ)
    (ha : 0 ≤ s.get_position a) (hb : 0 ≤ s.get_position b) :
    (0 ≤ s.calculate_imbalance a b ∧ s.calculate_imbalance a b ≤ 1) ∧
    (s.get_position a = s.get_position b → s.calculate_imbalance a b = 0) ∧
    (s.get_position a = 0 ∧ s.get_position b = 0 → s.calculate_imbalance a b = 0) := by
  simp only [PositionTracker.calculate_imbalance]
  by_cases h0 : s.get_position a + s.get_position b = 0
  · simp [h0]
  · rw [if_neg h0]
    have hpos : 0 < s.get_position a + s.get_position b :=
      lt_of_le_of_ne (by linarith) (Ne.symm h0)
    refine ⟨⟨div_nonneg (abs_nonneg _) hpos.le, ?_⟩, fun hab => ?_, fun hz => ?_⟩
    · rw [div_le_one hpos]
      exact abs_le.mpr ⟨by linarith, by linarith⟩
    · rw [hab]
      simp
    · rw [hz.1, hz.2] at h0
      norm_num at h0

/-- Witness for C5_amended: with positions +5 on token 0 and none on
token 1, the imbalance is within [0, 1]. -/
theorem C5_witness :
    0 ≤ ((PositionTracker.new 100).update_position 0 5).calculate_imbalance 0 1 ∧
    ((PositionTracker.new 100).update_position 0 5).calculate_imbalance 0 1 ≤ 1 := by
  exact (C5_amended _ 0 1
    (by norm_num [PositionTracker.update_position, PositionTracker.new,
      PositionTracker.get_position])
    (by norm_num [PositionTracker.update_position, PositionTracker.new,
      PositionTracker.get_position])).1

/-- Claim C6: `would_exceed_limit(yes, no)` is true exactly when the sum
of all stored cost entries plus the two candidate leg costs strictly
exceeds `max_exposure`; in particular, with $950 of stored cost, legs of
$30 and $28 and a $1000 ceiling it is true. -/
theorem C6_would_exceed_limit_iff :
    (∀ (s : PositionTracker) (yes_cost no_cost : ℚ),
      s.would_exceed_limit yes_cost no_cost = true ↔
        s.calculate_exposure + yes_cost + no_cost > s.max_exposure) ∧
    (PositionTracker.mk (fun _ => none) [(0, 950)] 1000).would_exceed_limit 30 28
      = true := by
  constructor
  · intro s yes_cost no_cost
    simp only [PositionTracker.would_exceed_limit, decide_eq_true_eq]
    constructor <;> intro h <;> linarith
  · norm_num [PositionTracker.would_exceed_limit, PositionTracker.calculate_exposure]

/-- Claim C10: a buy (`delta > 0`, `price ≥ 0`) whose previous cost plus
`price * delta` stays below one cent leaves the token with no cost entry
at all (the one-cent snap runs after buys too), while the positions store
is untouched by `update_exposure_cost`. -/
theorem C10_buy_below_one_cent_removed (s : PositionTracker) (t : ℕ)
    (price delta : ℚ) (_hprice : 0 ≤ price) (hdelta : 0 < delta)
    (hsmall : (CostMap.lookup s.exposure_costs t).getD 0 + price * delta < 1/100) :
    CostMap.lookup (s.update_exposure_cost t price delta).exposure_costs t = none ∧
    (s.update_exposure_cost t price delta).positions = s.positions := by
  refine ⟨?_, PositionTracker.positions_update_exposure_cost s t price delta⟩
  have heval : (s.update_exposure_cost t price delta).exposure_costs
      = CostMap.remove s.exposure_costs t := by
    simp only [PositionTracker.update_exposure_cost, if_neg (ne_of_gt hdelta),
      if_neg (not_lt.mpr hdelta.le : ¬ delta < 0), if_pos hdelta]
    rw [if_pos hsmall]
  rw [heval, CostMap.lookup_remove_self]

/-- Witness for C10: with position 5 and no cost entry on token 0, a buy
of 1 unit at price 0.001 (cost 0.001 < $0.01) leaves no cost entry and
does not touch the positions store. -/
theorem C10_witness :
    CostMap.lookup (((PositionTracker.new 100).update_position 0 5).update_exposure_cost
        0 (1/1000) 1).exposure_costs 0 = none ∧
    (((PositionTracker.new 100).update_position 0 5).update_exposure_cost
        0 (1/1000) 1).positions
      = ((PositionTracker.new 100).update_position 0 5).positions := by
  exact C10_buy_below_one_cent_removed _ 0 (1/1000) 1 (by norm_num) (by norm_num)
    (by norm_num [PositionTracker.update_position, PositionTracker.new,
      CostMap.lookup, CostMap.remove, List.find?])

/-- Claim C8: a condition id is produced by `condition_ids_with_both_sides`
exactly when the snapshot holds an entry of strictly positive size at
outcome index 0 and one at outcome index 1 for that id. -/
theorem C8_both_sides_iff (positions : List InventoryPosition) (c : ℕ) :
    c ∈ condition_ids_with_both_sides positions ↔
      ((∃ p ∈ positions, p.condition_id = c ∧ 0 < p.size ∧ p.outcome_index = 0) ∧
       (∃ p ∈ positions, p.condition_id = c ∧ 0 < p.size ∧ p.outcome_index = 1)) := by
  simp only [condition_ids_with_both_sides, List.mem_filter, List.mem_dedup,
    List.mem_map, List.any_eq_true, Bool.and_eq_true, beq_iff_eq,
    decide_eq_true_eq]
  aesop

/-- Claim C9: the settlement classifier returns no action when both legs
are fully filled with equal quantities; MonitorForExit with the filled
leg and its quantity when exactly one leg filled and the other entirely
unfilled; SellExcess with the larger leg and the difference when both
legs filled unequally; and ManualIntervention in every other
combination. -/
theorem C9_classifier_cases (yes_leg no_leg : LegFill) :
    (yes_leg.filled = yes_leg.ordered → no_leg.filled = no_leg.ordered →
      yes_leg.filled = no_leg.filled →
      SettlementClassifier.classify yes_leg no_leg = RecoveryAction.noAction) ∧
    (0 < yes_leg.filled → no_leg.filled = 0 →
      SettlementClassifier.classify yes_leg no_leg =
        RecoveryAction.monitorForExit yes_leg.token yes_leg.filled) ∧
    (0 < no_leg.filled → yes_leg.filled = 0 →
      SettlementClassifier.classify yes_leg no_leg =
        RecoveryAction.monitorForExit no_leg.token no_leg.filled) ∧
    (0 < yes_leg.filled → 0 < no_leg.filled → no_leg.filled < yes_leg.filled →
      SettlementClassifier.classify yes_leg no_leg =
        RecoveryAction.sellExcess yes_leg.token (yes_leg.filled - no_leg.filled)) ∧
    (0 < yes_leg.filled → 0 < no_leg.filled → yes_leg.filled < no_leg.filled →
      SettlementClassifier.classify yes_leg no_leg =
        RecoveryAction.sellExcess no_leg.token (no_leg.filled - yes_leg.filled)) ∧
    (¬(yes_leg.filled = yes_leg.ordered ∧ no_leg.filled = no_leg.ordered ∧
        yes_leg.filled = no_leg.filled) →
      ¬(0 < yes_leg.filled ∧ no_leg.filled = 0) →
      ¬(0 < no_leg.filled ∧ yes_leg.filled = 0) →
      ¬(0 < yes_leg.filled ∧ 0 < no_leg.filled ∧ yes_leg.filled ≠ no_leg.filled) →
      SettlementClassifier.classify yes_leg no_leg =
        RecoveryAction.manualIntervention "inconsistent fill state") := by
  refine ⟨fun h1 h2 h3 => ?_, fun h1 h2 => ?_, fun h1 h2 => ?_,
    fun h1 h2 h3 => ?_, fun h1 h2 h3 => ?_, fun h1 h2 h3 h4 => ?_⟩
  · simp only [SettlementClassifier.classify]
    rw [if_pos ⟨h1, h2, h3⟩]
  · have hn1 : ¬(yes_leg.filled = yes_leg.ordered ∧ no_leg.filled = no_leg.ordered ∧
        yes_leg.filled = no_leg.filled) := by
      rintro ⟨-, -, he⟩
      rw [he, h2] at h1
      exact lt_irrefl 0 h1
    simp only [SettlementClassifier.classify]
    rw [if_neg hn1, if_pos ⟨h1, h2⟩]
  · have hn1 : ¬(yes_leg.filled = yes_leg.ordered ∧ no_leg.filled = no_leg.ordered ∧
        yes_leg.filled = no_leg.filled) := by
      rintro ⟨-, -, he⟩
      rw [h2] at he
      rw [← he] at h1
      exact lt_irrefl 0 h1
    have hn2 : ¬(0 < yes_leg.filled ∧ no_leg.filled = 0) := by
      rintro ⟨hy, -⟩
      rw [h2] at hy
      exact lt_irrefl 0 hy
    simp only [SettlementClassifier.classify]
    rw [if_neg hn1, if_neg hn2, if_pos ⟨h1, h2⟩]
  · have hne : yes_leg.filled ≠ no_leg.filled := (ne_of_lt h3).symm
    have hn1 : ¬(yes_leg.filled = yes_leg.ordered ∧ no_leg.filled = no_leg.ordered ∧
        yes_leg.filled = no_leg.filled) := by
      rintro ⟨-, -, he⟩
      exact hne he
    have hn2 : ¬(0 < yes_leg.filled ∧ no_leg.filled = 0) := by
      rintro ⟨-, hz⟩
      rw [hz] at h2
      exact lt_irrefl 0 h2
    have hn3 : ¬(0 < no_leg.filled ∧ yes_leg.filled = 0) := by
      rintro ⟨-, hz⟩
      rw [hz] at h1
      exact lt_irrefl 0 h1
    simp only [SettlementClassifier.classify]
    rw [if_neg hn1, if_neg hn2, if_neg hn3, if_pos ⟨h1, h2, hne⟩, if_pos h3]
  · have hne : yes_leg.filled ≠ no_leg.filled := ne_of_lt h3
    have hn1 : ¬(yes_leg.filled = yes_leg.ordered ∧ no_leg.filled = no_leg.ordered ∧
        yes_leg.filled = no_leg.filled) := by
      rintro ⟨-, -, he⟩
      exact hne he
    have hn2 : ¬(0 < yes_leg.filled ∧ no_leg.filled = 0) := by
      rintro ⟨-, hz⟩
      rw [hz] at h2
      exact lt_irrefl 0 h2
    have hn3 : ¬(0 < no_leg.filled ∧ yes_leg.filled = 0) := by
      rintro ⟨-, hz⟩
      rw [hz] at h1
      exact lt_irrefl 0 h1
    simp only [SettlementClassifier.classify]
    rw [if_neg hn1, if_neg hn2, if_neg hn3, if_pos ⟨h1, h2, hne⟩,
      if_neg (not_lt.mpr h3.le)]
  · simp only [SettlementClassifier.classify]
    rw [if_neg h1, if_neg h2, if_neg h3, if_neg h4]

/-- Witness for C9, the spec's Scenarios D and E: one leg fully filled
at 50 with the other at 0 gives MonitorForExit of 50; fills of 50 and 45
give SellExcess of the difference 5. -/
theorem C9_witness :
    SettlementClassifier.classify ⟨10, 50, 50⟩ ⟨11, 50, 0⟩
      = RecoveryAction.monitorForExit 10 50 ∧
    SettlementClassifier.classify ⟨10, 50, 50⟩ ⟨11, 45, 45⟩
      = RecoveryAction.sellExcess 10 5 := by
  constructor
  · exact (C9_classifier_cases ⟨10, 50, 50⟩ ⟨11, 50, 0⟩).2.1 (by norm_num) rfl
  · have h := (C9_classifier_cases ⟨10, 50, 50⟩ ⟨11, 45, 45⟩).2.2.2.1
      (by norm_num) (by norm_num) (by norm_num)
    rw [h]
    norm_num

/-- Claim C2: whenever `check_arbitrage` (via `find_best_opportunity`)
returns an opportunity, its two prices — which are the books' best asks
rounded to 2 decimal places — sum to at most 1, and neither leg's
notional `price * size` is below the detector's minimum order value. -/
theorem C2_no_overpriced_or_dust_opportunity (d : ArbitrageDetector)
    (yes_book no_book : BookUpdate) (market_id : ℕ) (opp : ArbitrageOpportunity)
    (h : d.check_arbitrage yes_book no_book market_id = some opp) :
    opp.yes_ask_price + opp.no_ask_price ≤ 1 ∧
    d.min_order_value_usd ≤ opp.yes_ask_price * opp.yes_size ∧
    d.min_order_value_usd ≤ opp.no_ask_price * opp.no_size ∧
    (∃ yes_best no_best, yes_book.asks.getLast? = some yes_best ∧
      no_book.asks.getLast? = some no_best ∧
      opp.yes_ask_price = roundDp2 yes_best.price ∧
      opp.no_ask_price = roundDp2 no_best.price) := by
  simp only [ArbitrageDetector.check_arbitrage, Option.map_eq_some'] at h
  obtain ⟨r, hr, hopp⟩ := h
  simp only [ArbitrageDetector.find_best_opportunity] at hr
  split at hr
  · rename_i yb nb heqy heqn
    split at hr
    · exact absurd hr (by simp)
    · rename_i h1
      push_neg at h1
      split at hr <;>
        (split at hr
         · exact absurd hr (by simp)
         · rename_i h2
           push_neg at h2
           rw [Option.some_inj] at hr
           subst hr
           subst hopp
           exact ⟨h1, h2.1, h2.2, yb, nb, heqy, heqn, rfl, rfl⟩)
  · exact absurd hr (by simp)

/-- Witness for C2, the spec's Scenario A: YES best ask 0.46 with size
120, NO best ask 0.51 with size 90 yield the opportunity priced
0.46 + 0.51 = 0.97 at size 90, satisfying both bounds. -/
theorem C2_witness :
    ((23/50 : ℚ) + 51/100 ≤ 1) ∧
    (ArbitrageDetector.new (1/1000)).min_order_value_usd ≤ (23/50 : ℚ) * 90 ∧
    (ArbitrageDetector.new (1/1000)).min_order_value_usd ≤ (51/100 : ℚ) * 90 ∧
    (∃ yes_best no_best,
      (BookUpdate.mk 0 [AskLevel.mk (46/100) 120]).asks.getLast? = some yes_best ∧
      (BookUpdate.mk 1 [AskLevel.mk (51/100) 90]).asks.getLast? = some no_best ∧
      (23/50 : ℚ) = roundDp2 yes_best.price ∧
      (51/100 : ℚ) = roundDp2 no_best.price) := by
  exact C2_no_overpriced_or_dust_opportunity (ArbitrageDetector.new (1/1000))
    (BookUpdate.mk 0 [AskLevel.mk (46/100) 120])
    (BookUpdate.mk 1 [AskLevel.mk (51/100) 90]) 7
    (ArbitrageOpportunity.mk 7 0 1 (23/50) (51/100) ((97/100) * 90) 3 90 90)
    (by norm_num [ArbitrageDetector.check_arbitrage,
      ArbitrageDetector.find_best_opportunity, ArbitrageDetector.new, roundDp2,
      List.getLast?, List.getLast, min_def, ArbitrageOpportunity.mk.injEq])

/-- Claim C7, counterexample: rounded best asks 0.40 and 0.50 sum below
1 and the raw minimum size is 0 (YES side empty at the level), yet the
evaluator returns none — the substituted 0.01-unit size is rejected by
the $1 minimum-order-value filter, so no opportunity is proposed. -/
theorem C7_counterexample :
    roundDp2 (2/5) + roundDp2 (1/2) ≤ 1 ∧
    min ((0 : ℚ)) 5 = 0 ∧
    (ArbitrageDetector.new (1/1000)).find_best_opportunity
      (BookUpdate.mk 0 [AskLevel.mk (2/5) 0]) (BookUpdate.mk 1 [AskLevel.mk (1/2) 5])
      = none := by
  refine ⟨by norm_num [roundDp2], by norm_num, ?_⟩
  norm_num [ArbitrageDetector.find_best_opportunity, ArbitrageDetector.new,
    roundDp2, List.getLast?, List.getLast, min_def]

/-- Claim C7, amended: when the rounded best asks sum to at most 1 and
the raw minimum best-ask size is exactly zero, the evaluator substitutes
the minimal unit size 0.01, but the minimum-order-value filter (fixed at
$1 by the constructor) then rejects both legs' notionals, so the
evaluator returns none rather than proposing an opportunity. -/
theorem C7_amended (min_profit_threshold : ℚ) (yes_book no_book : BookUpdate)
    (yes_best no_best : AskLevel)
    (hy : yes_book.asks.getLast? = some yes_best)
    (hn : no_book.asks.getLast? = some no_best)
    (hsum : roundDp2 yes_best.price + roundDp2 no_best.price ≤ 1)
    (hraw : min yes_best.size no_best.size = 0) :
    (ArbitrageDetector.new min_profit_threshold).find_best_opportunity
      yes_book no_book = none := by
  simp only [ArbitrageDetector.find_best_opportunity, hy, hn]
  rw [if_neg (not_lt.mpr hsum), if_pos hraw]
  have hval : roundDp2 yes_best.price * (1/100)
        < (ArbitrageDetector.new min_profit_threshold).min_order_value_usd ∨
      roundDp2 no_best.price * (1/100)
        < (ArbitrageDetector.new min_profit_threshold).min_order_value_usd := by
    simp only [ArbitrageDetector.new]
    by_cases hc : roundDp2 yes_best.price * (1/100) < 1
    · exact Or.inl hc
    · push_neg at hc
      have hyp : (100 : ℚ) ≤ roundDp2 yes_best.price := by linarith
      have hnp : roundDp2 no_best.price ≤ -99 := by linarith
      exact Or.inr (by linarith)
  rw [if_pos hval]

/-- Witness for C7_amended: sizes 5 and 0 with prices 0.40 and 0.50. -/
theorem C7_witness :
    (ArbitrageDetector.new (1/1000)).find_best_opportunity
      (BookUpdate.mk 0 [AskLevel.mk (2/5) 5]) (BookUpdate.mk 1 [AskLevel.mk (1/2) 0])
      = none := by
  exact C7_amended (1/1000) _ _ (AskLevel.mk (2/5) 5) (AskLevel.mk (1/2) 0)
    rfl rfl (by norm_num [roundDp2]) (by norm_num [min_def])
